import Mathlib

/-!
Shallow embedding of `controllers/appbundle_controller.go` from kalantar/kealm.

The controller reconciles an `AppBundle` against a placement-decision cache and
a per-cluster `ManifestWork` store.  Go maps on object metadata are embedded as
association lists (`LMap`); a possibly-nil Go map is `Option LMap`, and a write
into a nil map is a panic, surfaced here as the `GoResult.panicked` outcome.
Store calls that can fail at runtime are driven by an error oracle (`Env`): a
`none` entry means the call succeeds against the modelled store contents.
-/

namespace Kealm

/-- A Go `map[string]string`, embedded as an association list.  A map write
`m[k] = v` replaces the value of an existing key in place, otherwise appends. -/
abbrev LMap := List (String × String)

/-- Go map update `m[k] = v`: replace the binding of `k` if present, else add it. -/
def lmapInsert : LMap → String → String → LMap
  | [], k, v => [(k, v)]
  | (k', v') :: rest, k, v =>
    if k' = k then (k, v) :: rest else (k', v') :: lmapInsert rest k v

/-- `PlacementLabel` from the source: the label attaching a placement to an AppBundle. -/
def PlacementLabel : String := "cluster.open-cluster-management.io/placement"

/-- `OwnedLabel` from the source: the ownership label attached to owned manifest works. -/
def OwnedLabel : String := "cluster.open-cluster-management.io/owned-by"

/-- Modelled from the spec: the finalizer token constant `DeployFinalizer` is
declared in this repository outside the provided source file (only its uses are
in `appbundle_controller.go`).  Section 6 of the spec describes it as "a
finalizer token string" of a fixed, well-known value; its exact text does not
matter to any claim, only that it is one fixed string. -/
def DeployFinalizer : String := "app.open-cluster-management.io/deploy-finalizer"

/-- Error taxonomy for store operations, following spec section 7.
`placementNotResolved` is the `fmt.Errorf` value produced by
`getPlacementDecision` when no decision matches. -/
inductive Err where
  | notFound
  | conflict
  | transport
  | placementNotResolved
deriving DecidableEq, Repr

/-- Outcome of a Go call in the controller: normal return with `nil` error,
return with a non-nil error, or a runtime panic (nil-map write). -/
inductive GoResult where
  | ok
  | fail (e : Err)
  | panicked
deriving DecidableEq, Repr

/-- The `AppBundle` object.  `deletionRequested` embeds
`!ObjectMeta.DeletionTimestamp.IsZero()`; `manifests` is
`Spec.Workload.Manifests` with each raw manifest left opaque. -/
structure AppBundle where
  name : String
  ns : String
  uid : String
  labels : Option LMap
  annots : Option LMap
  manifests : List String
  finalizers : List String
  deletionRequested : Bool
deriving DecidableEq, Repr

/-- A `ManifestWork` object in a per-cluster namespace.  `resourceVersion`
stands for the store-assigned metadata that `DeepCopy` preserves on update. -/
structure ManifestWork where
  name : String
  ns : String
  labels : Option LMap
  annots : Option LMap
  spec : List String
  resourceVersion : Nat
deriving DecidableEq, Repr

/-- An externally produced `PlacementDecision`: its namespace, its own labels,
and `Status.Decisions` projected to the list of cluster names. -/
structure PlacementDecision where
  ns : String
  labels : LMap
  decisions : List String
deriving DecidableEq, Repr

/-- The world visible to one reconciliation event: the stored bundle (if it
still exists), the manifest-work store across all clusters, and the
placement-decision cache in store iteration order. -/
structure ClusterState where
  bundle : Option AppBundle
  works : List ManifestWork
  decisions : List PlacementDecision
deriving DecidableEq, Repr

/-- Error oracle: the outcome each store call would have on this event.  A
`none` entry means the call succeeds.  Manifest-work oracles are keyed by
(namespace, name). -/
structure Env where
  bundleUpdateErr : Option Err
  manifestGetErr : String → String → Option Err
  manifestCreateErr : String → String → Option Err
  manifestUpdateErr : String → String → Option Err
  manifestDeleteErr : String → String → Option Err
  listErr : Option Err

/-- The oracle under which every store call succeeds. -/
def envOK : Env :=
  { bundleUpdateErr := none
    manifestGetErr := fun _ _ => none
    manifestCreateErr := fun _ _ => none
    manifestUpdateErr := fun _ _ => none
    manifestDeleteErr := fun _ _ => none
    listErr := none }

/-- Modelled from the spec: `containsString` is a small helper declared in this
repository outside the provided source file; it tests membership of a string
in a string slice (its two call sites test for the finalizer token). -/
def containsString (slice : List String) (s : String) : Bool :=
  slice.contains s

/-- `controllerutil.AddFinalizer`: append the token if it is not yet present. -/
def addFinalizer (b : AppBundle) (token : String) : AppBundle :=
  if b.finalizers.contains token then b
  else { b with finalizers := b.finalizers ++ [token] }

/-- `controllerutil.RemoveFinalizer`: drop every occurrence of the token. -/
def removeFinalizer (b : AppBundle) (token : String) : AppBundle :=
  { b with finalizers := b.finalizers.filter (fun f => f ≠ token) }

/-- `getPlacementLabel`: read `bundle.GetLabels()[PlacementLabel]` with the
comma-ok pattern; a nil map reads as absent. -/
def getPlacementLabel (bundle : AppBundle) : Option String :=
  match bundle.labels with
  | none => none
  | some l => l.lookup PlacementLabel

/-- The label selector built in `getPlacementDecision`: decisions in the given
namespace whose own `PlacementLabel` label equals the placement name. -/
def matchesPlacement (placementName placementNamespace : String)
    (d : PlacementDecision) : Bool :=
  d.ns == placementNamespace && d.labels.lookup PlacementLabel == some placementName

/-- `getPlacementDecision`: list the decisions matching the selector in the
namespace (the lister reads an in-memory cache and does not fail) and return
`pList[0]` when `len(pList) >= 1`, else the "could not find placement
decision" error. -/
def getPlacementDecision (placementName placementNamespace : String)
    (store : List PlacementDecision) : Except Err PlacementDecision :=
  match store.filter (matchesPlacement placementName placementNamespace) with
  | p :: _ => .ok p
  | [] => .error .placementNotResolved

/-- `generateManifest`: build a ManifestWork from the bundle.  The composite
literal aliases `bundle.Labels` and `bundle.Annotations`; the subsequent write
`manifest.Labels[OwnedLabel] = string(bundle.UID)` therefore also updates the
labels map of the bundle itself — and panics when that map is nil (`none`).
The returned pair is (the manifest, the bundle as left after the write). -/
def generateManifest (bundle : AppBundle) (ns : String) :
    Option (ManifestWork × AppBundle) :=
  match bundle.labels with
  | none => none
  | some l =>
    let l' := lmapInsert l OwnedLabel bundle.uid
    some ({ name := bundle.name
            ns := ns
            labels := some l'
            annots := bundle.annots
            spec := bundle.manifests
            resourceVersion := 0 },
          { bundle with labels := some l' })

/-- `WorkV1().ManifestWorks(ns).Get(name)`: an injected transport error if the
oracle says so, otherwise the stored object or `NotFound`. -/
def getManifestWork (env : Env) (ns name : String) (works : List ManifestWork) :
    Except Err ManifestWork :=
  match env.manifestGetErr ns name with
  | some e => .error e
  | none =>
    match works.find? (fun w => w.ns == ns && w.name == name) with
    | some w => .ok w
    | none => .error .notFound

/-- `WorkV1().ManifestWorks(ns).Create(m)`: append on success. -/
def createManifestWork (env : Env) (m : ManifestWork) (works : List ManifestWork) :
    Except Err (List ManifestWork) :=
  match env.manifestCreateErr m.ns m.name with
  | some e => .error e
  | none => .ok (works ++ [m])

/-- `WorkV1().ManifestWorks(ns).Update(m)`: replace the object with the same
(namespace, name) on success. -/
def updateManifestWork (env : Env) (m : ManifestWork) (works : List ManifestWork) :
    Except Err (List ManifestWork) :=
  match env.manifestUpdateErr m.ns m.name with
  | some e => .error e
  | none => .ok (works.map (fun w => if w.ns == m.ns && w.name == m.name then m else w))

/-- `WorkV1().ManifestWorks(ns).Delete(name)`: remove the object on success. -/
def deleteManifestWork (env : Env) (ns name : String) (works : List ManifestWork) :
    Except Err (List ManifestWork) :=
  match env.manifestDeleteErr ns name with
  | some e => .error e
  | none => .ok (works.filter (fun w => !(w.ns == ns && w.name == name)))

/-- The loop body of `scheduleBundle` over `decision.Status.Decisions`.  Note
the control flow of the source faithfully: when the Get reports NotFound, the
manifest is created and the loop returns the error of the Create — which is nil
on success, so a successful create also ends the whole loop; when the Get
reports any other error, that error is returned; when the Get succeeds, a
DeepCopy of the existing object gets its spec, labels and annotations
overwritten and an unconditional Update is issued, and only this branch
continues with the next cluster.  The bundle is threaded through because
`generateManifest` mutates its labels map. -/
def scheduleLoop (env : Env) (bundle : AppBundle) (decs : List String)
    (works : List ManifestWork) : GoResult × List ManifestWork :=
  match decs with
  | [] => (.ok, works)
  | cluster :: rest =>
    match generateManifest bundle cluster with
    | none => (.panicked, works)
    | some (manifest, bundle') =>
      match getManifestWork env cluster manifest.name works with
      | .error .notFound =>
        match createManifestWork env manifest works with
        | .ok works' => (.ok, works')
        | .error e => (.fail e, works)
      | .error e => (.fail e, works)
      | .ok existing =>
        let newManifest := { existing with
          spec := manifest.spec
          labels := manifest.labels
          annots := manifest.annots }
        match updateManifestWork env newManifest works with
        | .ok works' => scheduleLoop env bundle' rest works'
        | .error e => (.fail e, works)

/-- `scheduleBundle`: iterate the decided clusters. -/
def scheduleBundle (env : Env) (bundle : AppBundle)
    (decision : PlacementDecision) (works : List ManifestWork) :
    GoResult × List ManifestWork :=
  scheduleLoop env bundle decision.decisions works

/-- The delete loop of `deleteAllChildManifests` over the listed items. -/
def deleteLoop (env : Env) (items : List ManifestWork) (works : List ManifestWork) :
    GoResult × List ManifestWork :=
  match items with
  | [] => (.ok, works)
  | m :: rest =>
    match deleteManifestWork env m.ns m.name works with
    | .error e => (.fail e, works)
    | .ok works' => deleteLoop env rest works'

/-- `deleteAllChildManifests`: the source builds a label selector requiring
`OwnedLabel == bundle.UID`, but then calls
`ManifestWorks("").List(..., v1.ListOptions{})` with empty options — the
selector is never applied — and deletes every listed item.  The bundle
argument therefore does not influence which works are deleted. -/
def deleteAllChildManifests (env : Env) (_bundle : AppBundle)
    (works : List ManifestWork) : GoResult × List ManifestWork :=
  match env.listErr with
  | some e => (.fail e, works)
  | none => deleteLoop env works works

/-- Modelled from the spec: the body of `IgnoreConflict` is declared in this
repository outside the provided source file (only its call site is in
`appbundle_controller.go`).  Following its name — the analogue of
`client.IgnoreNotFound` — and spec section 4.1 ("a persist conflict is retried
by letting the event be redelivered …, never treated as fatal"), it maps a
Conflict error to a nil error and returns any other error unchanged. -/
def IgnoreConflict : Option Err → Option Err
  | some .conflict => none
  | e => e

/-- The tail of `Reconcile` from the placement-label check onward: log-and-stop
when the bundle carries no placement label, resolve the placement decision,
and schedule only non-empty bundles.  `bundle` is the originally fetched
object (the source keeps using it even after persisting the finalizer copy). -/
def reconcileActive (env : Env) (st : ClusterState) (bundle : AppBundle) :
    GoResult × ClusterState :=
  match getPlacementLabel bundle with
  | none => (.ok, st)
  | some pLabel =>
    match getPlacementDecision pLabel bundle.ns st.decisions with
    | .error e => (.fail e, st)
    | .ok placementDec =>
      if bundle.manifests.length > 0 then
        match scheduleBundle env bundle placementDec st.works with
        | (.ok, works') => (.ok, { st with works := works' })
        | (.fail e, works') => (.fail e, { st with works := works' })
        | (.panicked, works') => (.panicked, { st with works := works' })
      else (.ok, st)

/-- `Reconcile`: fetch the bundle (NotFound is ignored), handle the
finalizer/deletion state machine, then placement resolution and scheduling.
On the deletion path the sweep runs first; only after it succeeds is the
finalizer removed and persisted, a conflict on that persist being filtered by
`IgnoreConflict`.  A failed persist leaves the stored bundle unchanged. -/
def reconcile (env : Env) (st : ClusterState) : GoResult × ClusterState :=
  match st.bundle with
  | none => (.ok, st)
  | some bundle =>
    if bundle.deletionRequested = false then
      if containsString bundle.finalizers DeployFinalizer = false then
        let b' := addFinalizer bundle DeployFinalizer
        match env.bundleUpdateErr with
        | some e => (.fail e, st)
        | none => reconcileActive env { st with bundle := some b' } bundle
      else
        reconcileActive env st bundle
    else
      if containsString bundle.finalizers DeployFinalizer then
        match deleteAllChildManifests env bundle st.works with
        | (.fail e, works') => (.fail e, { st with works := works' })
        | (.panicked, works') => (.panicked, { st with works := works' })
        | (.ok, works') =>
          let b' := removeFinalizer bundle DeployFinalizer
          match IgnoreConflict env.bundleUpdateErr with
          | some e => (.fail e, { st with works := works' })
          | none =>
            match env.bundleUpdateErr with
            | some _ => (.ok, { st with works := works' })
            | none => (.ok, { st with works := works', bundle := some b' })
      else
        (.ok, st)

/-! ### Concrete fixtures

Two bundles (UIDs `u1`, `u2`) with artifacts on overlapping cluster sets, a
placement decision over `east`/`west`, and oracles for the failure scenarios
of the spec (a failing delete on `west`, a conflict on the bundle update). -/

/-- Bundle `b1`, active, labeled with placement `p1`, finalizer present. -/
def bundleActive1 : AppBundle :=
  { name := "b1", ns := "default", uid := "u1"
    labels := some [(PlacementLabel, "p1")], annots := none
    manifests := ["cm1"], finalizers := [DeployFinalizer]
    deletionRequested := false }

/-- Bundle `b1` with deletion requested. -/
def bundleDel1 : AppBundle := { bundleActive1 with deletionRequested := true }

/-- Bundle `b1` before its finalizer was added. -/
def bundleNoFin : AppBundle := { bundleActive1 with finalizers := [] }

/-- Bundle `b1` with an empty manifest list. -/
def bundleEmptyM : AppBundle := { bundleActive1 with manifests := [] }

/-- Artifact of `b1` (owner `u1`) on cluster `east`. -/
def workU1east : ManifestWork :=
  { name := "b1", ns := "east", labels := some [(OwnedLabel, "u1")]
    annots := none, spec := ["cm1"], resourceVersion := 3 }

/-- Artifact of `b1` (owner `u1`) on cluster `west`. -/
def workU1west : ManifestWork := { workU1east with ns := "west" }

/-- Artifact of another bundle `b2` (owner `u2`) on cluster `east`. -/
def workU2east : ManifestWork :=
  { name := "b2", ns := "east", labels := some [(OwnedLabel, "u2")]
    annots := none, spec := ["cm2"], resourceVersion := 4 }

/-- Decision for placement `p1` resolving to clusters `east` and `west`. -/
def decEastWest : PlacementDecision :=
  { ns := "default", labels := [(PlacementLabel, "p1")], decisions := ["east", "west"] }

/-- Decision for placement `p1` resolving to cluster `east` only. -/
def decEast : PlacementDecision :=
  { ns := "default", labels := [(PlacementLabel, "p1")], decisions := ["east"] }

/-- A second decision for placement `p1`, later in store order. -/
def decEastB : PlacementDecision :=
  { ns := "default", labels := [(PlacementLabel, "p1")], decisions := ["south"] }

/-- A decision for a different placement `p2`. -/
def decOther : PlacementDecision :=
  { ns := "default", labels := [(PlacementLabel, "p2")], decisions := ["south"] }

/-- Oracle injecting an optimistic-concurrency conflict on the bundle update. -/
def envConflict : Env := { envOK with bundleUpdateErr := some .conflict }

/-- Oracle injecting a transport-failure bundle update. -/
def envUpdateFails : Env := { envOK with bundleUpdateErr := some .transport }

/-- Oracle under which deleting any manifest work on `west` fails. -/
def envDelWestFails : Env :=
  { envOK with manifestDeleteErr :=
      fun ns _ => if ns == "west" then some .transport else none }

/-- State: active bundle `b1`, no decision in the cache, empty store. -/
def stNoDecision : ClusterState :=
  { bundle := some bundleActive1, works := [], decisions := [] }

/-- State: active bundle `b1`, only a decision for a different placement. -/
def stOtherDecision : ClusterState :=
  { bundle := some bundleActive1, works := [], decisions := [decOther] }

/-- State: bundle `b1` under deletion, artifacts on `east` and `west`. -/
def stDelTwo : ClusterState :=
  { bundle := some bundleDel1, works := [workU1east, workU1west], decisions := [] }

/-- State: bundle `b1` under deletion, empty store. -/
def stDelEmpty : ClusterState :=
  { bundle := some bundleDel1, works := [], decisions := [] }

/-- State: bundle `b1` with an empty manifest list, a foreign artifact in the
store, and a resolving decision. -/
def stEmptyM : ClusterState :=
  { bundle := some bundleEmptyM, works := [workU2east], decisions := [decEast] }

/-- State: bundle `b1` before its finalizer was added, empty store, a
resolving decision for cluster `east`. -/
def stC10 : ClusterState :=
  { bundle := some bundleNoFin, works := [], decisions := [decEast] }

/-! ### Helper lemmas -/

/-- Writing the same binding twice is the same as writing it once. -/
theorem lmapInsert_idem (l : LMap) (k v : String) :
    lmapInsert (lmapInsert l k v) k v = lmapInsert l k v := by
  induction l with
  | nil => simp [lmapInsert]
  | cons kv rest ih =>
    obtain ⟨k', v'⟩ := kv
    by_cases h : k' = k
    · simp [lmapInsert, h]
    · simp [lmapInsert, h, ih]

/-- The first match of a predicate is the head of the filtered list. -/
theorem find?_eq_head?_filter {α : Type} (p : α → Bool) (l : List α) :
    l.find? p = (l.filter p).head? := by
  induction l with
  | nil => rfl
  | cons a rest ih =>
    by_cases h : p a
    · simp [List.find?, List.filter, h]
    · simp only [List.find?, List.filter, h]
      simp only [h, cond_false, ih]

/-- Every manifest work surviving the delete loop was already in the store. -/
theorem deleteLoop_subset (env : Env) (items works : List ManifestWork)
    (w : ManifestWork) (hw : w ∈ (deleteLoop env items works).2) : w ∈ works := by
  induction items generalizing works with
  | nil => simpa [deleteLoop] using hw
  | cons m rest ih =>
    simp only [deleteLoop] at hw
    cases h : deleteManifestWork env m.ns m.name works with
    | error e => rw [h] at hw; simpa using hw
    | ok works' =>
      rw [h] at hw
      have hsub := ih works' hw
      simp only [deleteManifestWork] at h
      cases he : env.manifestDeleteErr m.ns m.name with
      | some e => rw [he] at h; cases h
      | none =>
        rw [he] at h
        cases h
        exact List.mem_of_mem_filter hsub

/-- The delete loop never panics. -/
theorem deleteLoop_not_panicked (env : Env) (items works : List ManifestWork) :
    (deleteLoop env items works).1 ≠ .panicked := by
  induction items generalizing works with
  | nil => simp [deleteLoop]
  | cons m rest ih =>
    simp only [deleteLoop]
    cases h : deleteManifestWork env m.ns m.name works with
    | error e => simp
    | ok works' => exact ih works'

/-- Every manifest work surviving the sweep was already in the store. -/
theorem deleteAllChildManifests_subset (env : Env) (bundle : AppBundle)
    (works : List ManifestWork) (w : ManifestWork)
    (hw : w ∈ (deleteAllChildManifests env bundle works).2) : w ∈ works := by
  simp only [deleteAllChildManifests] at hw
  cases h : env.listErr with
  | some e => rw [h] at hw; simpa using hw
  | none => rw [h] at hw; exact deleteLoop_subset env works works w hw

/-- The sweep never panics. -/
theorem deleteAllChildManifests_not_panicked (env : Env) (bundle : AppBundle)
    (works : List ManifestWork) :
    (deleteAllChildManifests env bundle works).1 ≠ .panicked := by
  simp only [deleteAllChildManifests]
  cases h : env.listErr with
  | some e => simp
  | none => exact deleteLoop_not_panicked env works works

/-- On a bundle whose labels map is non-nil, `generateManifest` does not panic,
and the bundle it hands back still has a non-nil labels map. -/
theorem generateManifest_some (bundle : AppBundle) (c : String) (l : LMap)
    (h : bundle.labels = some l) :
    generateManifest bundle c =
      some ({ name := bundle.name, ns := c
              labels := some (lmapInsert l OwnedLabel bundle.uid)
              annots := bundle.annots, spec := bundle.manifests
              resourceVersion := 0 },
            { bundle with labels := some (lmapInsert l OwnedLabel bundle.uid) }) := by
  simp [generateManifest, h]

/-- The schedule loop never panics when the labels map of the bundle is
non-nil: every bundle it threads onward keeps a non-nil labels map. -/
theorem scheduleLoop_not_panicked (env : Env) (decs : List String)
    (bundle : AppBundle) (works : List ManifestWork) (l : LMap)
    (h : bundle.labels = some l) :
    (scheduleLoop env bundle decs works).1 ≠ .panicked := by
  induction decs generalizing bundle works l with
  | nil => simp [scheduleLoop]
  | cons cluster rest ih =>
    simp only [scheduleLoop, generateManifest_some bundle cluster l h]
    split
    · split
      · simp
      · simp
    · simp
    · split
      · exact ih _ _ _ rfl
      · simp

/-- The active tail of `Reconcile` never panics. -/
theorem reconcileActive_not_panicked (env : Env) (st : ClusterState)
    (bundle : AppBundle) : (reconcileActive env st bundle).1 ≠ .panicked := by
  simp only [reconcileActive]
  cases hl : getPlacementLabel bundle with
  | none => simp
  | some pLabel =>
    have hlab : ∃ l, bundle.labels = some l := by
      revert hl
      simp only [getPlacementLabel]
      cases bundle.labels with
      | none => intro hc; cases hc
      | some l => intro _; exact ⟨l, rfl⟩
    obtain ⟨l, hlab⟩ := hlab
    cases hd : getPlacementDecision pLabel bundle.ns st.decisions with
    | error e => simp [hd]
    | ok placementDec =>
      simp only [hd]
      by_cases hlen : 0 < bundle.manifests.length
      · rw [if_pos hlen]
        have hnp := scheduleLoop_not_panicked env placementDec.decisions
          bundle st.works l hlab
        cases hs : scheduleBundle env bundle placementDec st.works with
        | mk r works' =>
          rw [show scheduleLoop env bundle placementDec.decisions st.works
              = scheduleBundle env bundle placementDec st.works from rfl, hs] at hnp
          cases r with
          | ok => simp [hs]
          | fail e => simp [hs]
          | panicked => exact absurd rfl hnp
      · rw [if_neg hlen]
        simp

/-- The active tail of `Reconcile` leaves the manifest-work store untouched
when the manifest list of the bundle is empty. -/
theorem reconcileActive_works_of_empty (env : Env) (st : ClusterState)
    (bundle : AppBundle) (hm : bundle.manifests = []) :
    (reconcileActive env st bundle).2.works = st.works := by
  simp only [reconcileActive]
  cases hl : getPlacementLabel bundle with
  | none => simp
  | some pLabel =>
    cases hd : getPlacementDecision pLabel bundle.ns st.decisions with
    | error e => simp [hd]
    | ok placementDec => simp [hd, hm]

/-! ### Claim theorems -/

/-- Claim C1 (code-bug evidence): the Ownership Sweeper is claimed to delete
exactly the artifacts whose ownership label equals the given owner UID.  In
the source the computed ownership selector is never passed to the List call,
so sweeping bundle `b1` (UID `u1`) also deletes the artifact owned by `u2`:
the sweep reports success and leaves the store empty, although the second
artifact carries owner label `u2 ≠ u1`. -/
theorem sweep_deletes_other_owners_artifact :
    (deleteAllChildManifests envOK bundleDel1 [workU1east, workU2east]).1 = .ok
    ∧ (deleteAllChildManifests envOK bundleDel1 [workU1east, workU2east]).2 = []
    ∧ workU2east.labels = some [(OwnedLabel, "u2")]
    ∧ bundleDel1.uid ≠ "u2" :=
  ⟨rfl, rfl, rfl, by decide⟩

/-- Claim C2 (code-bug evidence): convergence is claimed to process the full
target set in one event.  With both targets `east` and `west` resolved and an
empty store, the loop creates the artifact on `east` and then returns the nil
error of the Create, reporting success without ever attempting `west`. -/
theorem schedule_stops_after_first_create :
    decEastWest.decisions = ["east", "west"]
    ∧ (scheduleBundle envOK bundleActive1 decEastWest []).1 = .ok
    ∧ (scheduleBundle envOK bundleActive1 decEastWest []).2.map ManifestWork.ns
        = ["east"] :=
  ⟨rfl, rfl, rfl⟩

/-- Claim C3 (counterexample): a Bundle whose placement reference matches zero
PlacementDecisions is claimed to reconcile as a stable no-op returning
success.  On a state with a placement-labeled bundle and an empty decision
cache, `reconcile` returns the resolution error, not success. -/
theorem unresolved_placement_is_error :
    (reconcile envOK stNoDecision).1 = .fail .placementNotResolved
    ∧ (reconcile envOK stNoDecision).1 ≠ .ok := by
  constructor
  · decide
  · decide

/-- Claim C3 (amended): when the placement reference of an active, finalized
bundle matches zero PlacementDecisions, `reconcile` creates no artifacts and
leaves the state unchanged, but it returns the resolution error to its caller
(the event is redelivered); only a bundle with no placement label at all is
the logged, successful no-op. -/
theorem no_matching_decision_fails (env : Env) (st : ClusterState)
    (bundle : AppBundle) (pl : String)
    (hb : st.bundle = some bundle)
    (hdel : bundle.deletionRequested = false)
    (hfin : containsString bundle.finalizers DeployFinalizer = true)
    (hpl : getPlacementLabel bundle = some pl)
    (hmatch : ∀ d ∈ st.decisions, matchesPlacement pl bundle.ns d = false) :
    reconcile env st = (.fail .placementNotResolved, st) := by
  have hfilter : st.decisions.filter (matchesPlacement pl bundle.ns) = [] := by
    rw [List.filter_eq_nil_iff]
    intro d hd
    simp [hmatch d hd]
  simp only [reconcile, hb]
  rw [if_pos hdel, if_neg (by simp [hfin])]
  simp only [reconcileActive, hpl, getPlacementDecision, hfilter]

/-- Witness for C3 amended: a single decision for a different placement does
not match, and the event fails with the resolution error. -/
theorem no_matching_decision_fails_witness :
    reconcile envOK stOtherDecision = (.fail .placementNotResolved, stOtherDecision) :=
  no_matching_decision_fails envOK stOtherDecision bundleActive1 "p1" rfl rfl
    (by decide) (by decide) (by decide)

/-- Claim C4 (counterexample): `generateManifest` is claimed to leave the
bundle, including its labels map, unchanged.  The artifact labels map aliases
the bundle labels map, so the ownership-label write also lands in the bundle:
on a bundle carrying only the placement label, the bundle handed back by the
call differs from the input bundle. -/
theorem generateManifest_mutates_bundle :
    (generateManifest bundleActive1 "east").map Prod.snd ≠ some bundleActive1 := by
  decide

/-- Claim C4 (amended): on a bundle with a non-nil labels map, the synthesized
artifact has name = bundle name, namespace = target cluster, labels = bundle
labels plus the ownership label mapped to the bundle UID, annotations =
bundle annotations, spec = the workload payload verbatim, and synthesis is
deterministic: re-invoking it on the bundle as left by the first call yields
the identical artifact and bundle.  It is not side-effect-free: the bundle
after the call carries the artifact labels map (ownership label included). -/
theorem generateManifest_amended (bundle : AppBundle) (c : String) (l : LMap)
    (h : bundle.labels = some l) :
    ∃ m bundle2, generateManifest bundle c = some (m, bundle2)
      ∧ m.name = bundle.name ∧ m.ns = c
      ∧ m.labels = some (lmapInsert l OwnedLabel bundle.uid)
      ∧ m.annots = bundle.annots ∧ m.spec = bundle.manifests
      ∧ bundle2 = { bundle with labels := m.labels }
      ∧ generateManifest bundle2 c = some (m, bundle2) := by
  refine ⟨_, _, generateManifest_some bundle c l h, rfl, rfl, rfl, rfl, rfl, rfl, ?_⟩
  rw [generateManifest_some _ c (lmapInsert l OwnedLabel bundle.uid) rfl]
  simp [lmapInsert_idem]

/-- Witness for C4 amended: at the concrete bundle `b1` and target `east` the
synthesized artifact lands in namespace `east`. -/
theorem generateManifest_amended_witness :
    ((generateManifest bundleActive1 "east").map fun p => p.1.ns) = some "east" := by
  obtain ⟨m, b2, hgen, _, hns, _⟩ :=
    generateManifest_amended bundleActive1 "east" [(PlacementLabel, "p1")] rfl
  rw [hgen]
  simp [hns]

/-- Claim C5: on a deletion event for a bundle carrying the finalizer, the
sweep runs first; if it fails the error is returned and the stored bundle —
finalizer included — is untouched, and only when it fully succeeds (and the
persist succeeds) is the finalizer removed and persisted. -/
theorem deletion_gates_finalizer_on_sweep (env : Env) (st : ClusterState)
    (bundle : AppBundle)
    (hb : st.bundle = some bundle)
    (hdel : bundle.deletionRequested = true)
    (hfin : containsString bundle.finalizers DeployFinalizer = true) :
    (∀ e works', deleteAllChildManifests env bundle st.works = (.fail e, works') →
        reconcile env st = (.fail e, { st with works := works' }))
    ∧ (∀ works', deleteAllChildManifests env bundle st.works = (.ok, works') →
        env.bundleUpdateErr = none →
        reconcile env st =
          (.ok, { st with
                  works := works',
                  bundle := some (removeFinalizer bundle DeployFinalizer) })) := by
  constructor
  · intro e works' hsweep
    simp only [reconcile, hb]
    rw [if_neg (by simp [hdel]), if_pos hfin, hsweep]
  · intro works' hsweep hupd
    simp only [reconcile, hb]
    rw [if_neg (by simp [hdel]), if_pos hfin, hsweep, hupd]
    simp [IgnoreConflict]

/-- Witness for C5: with the delete on `west` failing, the event fails with
that error and the stored bundle keeps its finalizer. -/
theorem deletion_gates_finalizer_on_sweep_witness :
    reconcile envDelWestFails stDelTwo
      = (.fail .transport, { stDelTwo with works := [workU1west] })
    ∧ (reconcile envDelWestFails stDelTwo).2.bundle = some bundleDel1 := by
  have h := (deletion_gates_finalizer_on_sweep envDelWestFails stDelTwo bundleDel1
    rfl rfl (by decide)).1 .transport [workU1west] (by decide)
  refine ⟨h, ?_⟩
  rw [h]
  rfl

/-- Claim C6 (counterexample): a Conflict on the finalizer-removal persist is
claimed to be surfaced to the caller as an error.  With the update oracle
returning Conflict on a deletion event, `reconcile` reports success: the
conflict is filtered out by `IgnoreConflict`, not surfaced. -/
theorem finalizer_conflict_not_surfaced :
    envConflict.bundleUpdateErr = some .conflict
    ∧ reconcile envConflict stDelEmpty = (.ok, stDelEmpty) := by
  constructor
  · rfl
  · decide

/-- Claim C6 (amended): when the finalizer-removal persist fails with a
Conflict, the conflict is suppressed (mapped to success by `IgnoreConflict`)
and the pass ends without error, the stored bundle keeping its finalizer —
redelivery relies on the event generated by the conflicting write; any
non-Conflict persist error is surfaced.  In either case there is no internal
retry: the pass issues the one update and returns. -/
theorem finalizer_conflict_suppressed (env : Env) (st : ClusterState)
    (bundle : AppBundle) (works' : List ManifestWork)
    (hb : st.bundle = some bundle)
    (hdel : bundle.deletionRequested = true)
    (hfin : containsString bundle.finalizers DeployFinalizer = true)
    (hsweep : deleteAllChildManifests env bundle st.works = (.ok, works')) :
    (env.bundleUpdateErr = some .conflict →
        reconcile env st = (.ok, { st with works := works' }))
    ∧ (∀ e, e ≠ .conflict → env.bundleUpdateErr = some e →
        reconcile env st = (.fail e, { st with works := works' })) := by
  constructor
  · intro hupd
    simp only [reconcile, hb]
    rw [if_neg (by simp [hdel]), if_pos hfin, hsweep, hupd]
    simp [IgnoreConflict]
  · intro e hne hupd
    have hic : IgnoreConflict (some e) = some e := by
      cases e with
      | conflict => exact absurd rfl hne
      | notFound => rfl
      | transport => rfl
      | placementNotResolved => rfl
    simp only [reconcile, hb]
    rw [if_neg (by simp [hdel]), if_pos hfin, hsweep, hupd]
    simp [hic]

/-- Witness for C6 amended: a conflicting persist after a successful sweep of
two artifacts ends the pass with success and an emptied store. -/
theorem finalizer_conflict_suppressed_witness :
    reconcile envConflict stDelTwo = (.ok, { stDelTwo with works := [] }) :=
  (finalizer_conflict_suppressed envConflict stDelTwo bundleDel1 []
    rfl rfl (by decide) (by decide)).1 rfl

/-- Claim C7: a bundle with an empty manifest list never has an artifact
created on its behalf: every manifest work present after the event was
already in the store before it, whatever the oracle outcomes, the placement
label, or the resolution result. -/
theorem empty_manifests_creates_no_artifact (env : Env) (st : ClusterState)
    (bundle : AppBundle) (hb : st.bundle = some bundle)
    (hm : bundle.manifests = []) :
    ∀ w ∈ (reconcile env st).2.works, w ∈ st.works := by
  intro w hw
  simp only [reconcile, hb] at hw
  by_cases hdel : bundle.deletionRequested = false
  · rw [if_pos hdel] at hw
    by_cases hfin : containsString bundle.finalizers DeployFinalizer = false
    · rw [if_pos hfin] at hw
      cases hu : env.bundleUpdateErr with
      | some e => rw [hu] at hw; simpa using hw
      | none =>
        rw [hu] at hw
        rw [reconcileActive_works_of_empty env _ bundle hm] at hw
        exact hw
    · rw [if_neg hfin] at hw
      rw [reconcileActive_works_of_empty env st bundle hm] at hw
      exact hw
  · rw [if_neg hdel] at hw
    by_cases hfin : containsString bundle.finalizers DeployFinalizer = true
    · rw [if_pos hfin] at hw
      apply deleteAllChildManifests_subset env bundle st.works w
      cases hs : deleteAllChildManifests env bundle st.works with
      | mk r works' =>
        rw [hs] at hw
        cases r with
        | ok =>
          cases hic : IgnoreConflict env.bundleUpdateErr with
          | some e => rw [hic] at hw; simpa using hw
          | none =>
            rw [hic] at hw
            cases hu : env.bundleUpdateErr with
            | some e => rw [hu] at hw; simpa using hw
            | none => rw [hu] at hw; simpa using hw
        | fail e => simpa using hw
        | panicked => simpa using hw
    · rw [if_neg hfin] at hw
      exact hw

/-- Witness for C7: on a state holding only the artifact of another bundle,
the artifact found after the event was already there before. -/
theorem empty_manifests_creates_no_artifact_witness :
    workU2east ∈ (reconcile envOK stEmptyM).2.works ∧ workU2east ∈ stEmptyM.works :=
  ⟨by decide,
   empty_manifests_creates_no_artifact envOK stEmptyM bundleEmptyM rfl rfl
     workU2east (by decide)⟩

/-- Claim C8: the Placement Resolver fails (with its not-found error) exactly
when zero decisions in the namespace carry the placement-reference label equal
to the placement name, and otherwise returns the first matching decision in
store iteration order. -/
theorem getPlacementDecision_contract (pName pns : String)
    (store : List PlacementDecision) :
    (getPlacementDecision pName pns store = .error .placementNotResolved ↔
      ∀ d ∈ store, matchesPlacement pName pns d = false)
    ∧ ∀ d, store.find? (matchesPlacement pName pns) = some d →
        getPlacementDecision pName pns store = .ok d := by
  cases hf : store.filter (matchesPlacement pName pns) with
  | nil =>
    have hall := List.filter_eq_nil_iff.mp hf
    constructor
    · constructor
      · intro _ d hd
        have := hall d hd
        simpa using this
      · intro _
        simp [getPlacementDecision, hf]
    · intro d hd
      rw [find?_eq_head?_filter, hf] at hd
      cases hd
  | cons p rest =>
    constructor
    · constructor
      · intro h
        exfalso
        simp [getPlacementDecision, hf] at h
      · intro hall
        exfalso
        have hp : p ∈ store.filter (matchesPlacement pName pns) := by
          rw [hf]; exact List.mem_cons_self p rest
        have hmatched := List.of_mem_filter hp
        have hmem := List.mem_of_mem_filter hp
        have := hall p hmem
        simp_all
    · intro d hd
      rw [find?_eq_head?_filter, hf] at hd
      have : d = p := by simpa using hd.symm
      subst this
      simp [getPlacementDecision, hf]

/-- Witness for C8: among a non-matching decision and two matching ones, the
resolver returns the first matching decision in store order. -/
theorem getPlacementDecision_contract_witness :
    getPlacementDecision "p1" "default" [decOther, decEast, decEastB] = .ok decEast :=
  (getPlacementDecision_contract "p1" "default" [decOther, decEast, decEastB]).2
    decEast (by decide)

/-- `reconcile` never returns the panic outcome. -/
theorem reconcile_not_panicked (env : Env) (st : ClusterState) :
    (reconcile env st).1 ≠ .panicked := by
  cases hb : st.bundle with
  | none => simp [reconcile, hb]
  | some bundle =>
    simp only [reconcile, hb]
    by_cases hdel : bundle.deletionRequested = false
    · rw [if_pos hdel]
      by_cases hfin : containsString bundle.finalizers DeployFinalizer = false
      · rw [if_pos hfin]
        cases hu : env.bundleUpdateErr with
        | some e => simp
        | none => exact reconcileActive_not_panicked env _ bundle
      · rw [if_neg hfin]
        exact reconcileActive_not_panicked env st bundle
    · rw [if_neg hdel]
      by_cases hfin : containsString bundle.finalizers DeployFinalizer = true
      · rw [if_pos hfin]
        have hnp := deleteAllChildManifests_not_panicked env bundle st.works
        cases hs : deleteAllChildManifests env bundle st.works with
        | mk r works' =>
          rw [hs] at hnp
          cases r with
          | ok =>
            cases hic : IgnoreConflict env.bundleUpdateErr with
            | some e => simp [hic]
            | none =>
              cases hu : env.bundleUpdateErr with
              | some e => simp [hic, hu]
              | none => simp [hic, hu]
          | fail e => simp
          | panicked => exact absurd rfl hnp
      · rw [if_neg hfin]
        simp

/-- Claim C9: `Reconcile` never reaches the nil-map-write panic in
`generateManifest`: that call is reachable only behind the placement-label
guard, which guarantees the labels map of the bundle is non-nil, and the
bundles threaded through the schedule loop keep a non-nil labels map.  Every
event therefore ends in a normal return — success or a returned error. -/
theorem reconcile_never_panics (env : Env) (st : ClusterState) :
    (reconcile env st).1 = .ok ∨ ∃ e, (reconcile env st).1 = .fail e := by
  cases hr : (reconcile env st).1 with
  | ok => exact Or.inl rfl
  | fail e => exact Or.inr ⟨e, rfl⟩
  | panicked => exact absurd hr (reconcile_not_panicked env st)

/-- Claim C10: on an event for a live bundle still lacking the finalizer, a
successful finalizer persist does not end the event: the same pass resolves
the placement and converges the resolved target, so the post-state carries
both the finalized bundle and the newly created artifact. -/
theorem finalizer_add_continues_same_event (env : Env) (st : ClusterState)
    (bundle : AppBundle) (l : LMap) (pl : String) (dec : PlacementDecision)
    (c : String)
    (hb : st.bundle = some bundle)
    (hdel : bundle.deletionRequested = false)
    (hfin : containsString bundle.finalizers DeployFinalizer = false)
    (hupd : env.bundleUpdateErr = none)
    (hl : bundle.labels = some l)
    (hpl : getPlacementLabel bundle = some pl)
    (hdec : getPlacementDecision pl bundle.ns st.decisions = .ok dec)
    (hc : dec.decisions = [c])
    (hm : bundle.manifests ≠ [])
    (hget : getManifestWork env c bundle.name st.works = .error .notFound)
    (hcr : env.manifestCreateErr c bundle.name = none) :
    reconcile env st =
      (.ok, { st with
          bundle := some (addFinalizer bundle DeployFinalizer)
          works := st.works ++
            [{ name := bundle.name, ns := c
               labels := some (lmapInsert l OwnedLabel bundle.uid)
               annots := bundle.annots, spec := bundle.manifests
               resourceVersion := 0 }] }) := by
  simp only [reconcile, hb]
  rw [if_pos hdel, if_pos hfin, hupd]
  simp only [reconcileActive, hpl, hdec]
  have hlen : bundle.manifests.length > 0 := List.length_pos.mpr hm
  rw [if_pos hlen]
  simp only [scheduleBundle, hc, scheduleLoop,
    generateManifest_some bundle c l hl, hget]
  simp only [createManifestWork, hcr]

/-- Witness for C10: starting from a finalizer-less bundle, one event both
persists the finalizer and creates the artifact on the resolved cluster. -/
theorem finalizer_add_continues_same_event_witness :
    reconcile envOK stC10 =
      (.ok, { stC10 with
          bundle := some (addFinalizer bundleNoFin DeployFinalizer)
          works := stC10.works ++
            [{ name := bundleNoFin.name, ns := "east"
               labels := some (lmapInsert [(PlacementLabel, "p1")] OwnedLabel
                 bundleNoFin.uid)
               annots := bundleNoFin.annots, spec := bundleNoFin.manifests
               resourceVersion := 0 }] }) :=
  finalizer_add_continues_same_event envOK stC10 bundleNoFin
    [(PlacementLabel, "p1")] "p1" decEast "east" rfl rfl (by decide) rfl rfl
    (by decide) rfl rfl (by decide) rfl rfl

end Kealm
